import Mathlib

/-!
Shallow embedding of the `database-45-steps` key–value store core:
the entry codec (`src/src/entry_codec.cpp`, `src/include/entry_codec.h`),
the log file header handling (`src/src/log.cpp`), the cell codec
(`src/src/cell_codec.cpp`) and the KV engine (`src/src/kv.cpp`).

Bytes are modelled as `List Nat` (each element a byte value `< 256` in every
buffer the code itself produces); machine integers are `Nat` with explicit
`% 2^w` where the code truncates.  File reads are modelled with `List.take` /
`List.drop`, matching `platform_read` (`src/src/platform_unix.cpp`), which
performs a single `::read` returning `min(requested, available)` bytes on a
regular file.
-/

abbrev Bytes := List Nat

/-- `pack_le<uint32_t>` from `src/include/bit_utils.h`: four little-endian
limbs of a 32-bit value. -/
def pack_le32 (v : Nat) : Bytes :=
  [v % 256, v / 256 % 256, v / 65536 % 256, v / 16777216 % 256]

/-- `pack_le<uint16_t>` from `src/include/bit_utils.h`. -/
def pack_le16 (v : Nat) : Bytes :=
  [v % 256, v / 256 % 256]

/-- `unpack_le<uint32_t>` on four byte values. -/
def unpack_le32 (b0 b1 b2 b3 : Nat) : Nat :=
  b0 + 256 * b1 + 65536 * b2 + 16777216 * b3

/-- `unpack_le<uint16_t>` on two byte values. -/
def unpack_le16 (b0 b1 : Nat) : Nat :=
  b0 + 256 * b1

/-- Read a little-endian `u32` at offset `off` of a buffer
(out-of-range bytes default to 0, which never happens on the paths the
code guards by length checks). -/
def bufU32 (buf : Bytes) (off : Nat) : Nat :=
  unpack_le32 (buf.getD off 0) (buf.getD (off + 1) 0)
    (buf.getD (off + 2) 0) (buf.getD (off + 3) 0)

/-- Read a little-endian `u16` at offset `off` of a buffer. -/
def bufU16 (buf : Bytes) (off : Nat) : Nat :=
  unpack_le16 (buf.getD off 0) (buf.getD (off + 1) 0)

/-! ## CRC-32/IEEE (`src/include/bit_utils.h`) -/

/-- One step of the CRC-32 table generator:
`c = (c >> 1) ^ (c & 1 ? 0xEDB88320 : 0)`. -/
def crc32_step (c : Nat) : Nat :=
  if c % 2 = 1 then Nat.xor (c / 2) 0xEDB88320 else c / 2

/-- Entry `i` of the CRC-32 table: eight generator steps applied to `i`. -/
def crc32_table (i : Nat) : Nat :=
  crc32_step (crc32_step (crc32_step (crc32_step
    (crc32_step (crc32_step (crc32_step (crc32_step i)))))))

def crc32_init : Nat := 0xFFFFFFFF

/-- The loop body of `crc32_update`:
`crc = (crc >> 8) ^ table[uint8(b) ^ (crc & 0xFF)]`. -/
def crc32_byte (c b : Nat) : Nat :=
  Nat.xor (c / 256) (crc32_table (Nat.xor (b % 256) (c % 256)))

/-- `crc32_update` folds the per-byte step over the data. -/
def crc32_update (crc : Nat) (data : Bytes) : Nat :=
  data.foldl crc32_byte crc

def crc32_final (c : Nat) : Nat := Nat.xor c 0xFFFFFFFF

def crc32_ieee (data : Bytes) : Nat := crc32_final (crc32_update crc32_init data)

/-! ## Entry and the entry codec -/

/-- `struct Entry` (`src/include/entry.h`): one log record. -/
structure Entry where
  key : Bytes
  val : Bytes
  deleted : Bool
deriving DecidableEq, Repr

/-- The closed error taxonomy of `src/include/db_error.h`
(the members the embedded code can produce). -/
inductive DbError where
  | truncated_header
  | truncated_payload
  | key_too_large
  | value_too_large
  | io_failure
  | bad_magic
  | unsupported_version
  | bad_checksum
  | type_mismatch
  | expect_more_data
  | illegal_byte_sequence
deriving DecidableEq, Repr

namespace EntryCodec

def CKSUM_OFFSET : Nat := 0
def KLEN_OFFSET : Nat := 4
def VLEN_OFFSET : Nat := 8
def FLAG_OFFSET : Nat := 12
def HEADER_SIZE : Nat := 13
def MAX_KEY_SIZE : Nat := 1024
def MAX_VAL_SIZE : Nat := 1024 * 1024

/-- `EntryCodec::encode` (`src/src/entry_codec.cpp`): build
`[klen|vlen|flag|key|val?]`, CRC it, and prepend the checksum. -/
def encode (e : Entry) : Bytes :=
  let klen := e.key.length
  let vlen := if e.deleted then 0 else e.val.length
  let body := pack_le32 klen ++ pack_le32 vlen ++ [if e.deleted then 1 else 0]
    ++ e.key ++ (if e.deleted then [] else e.val)
  pack_le32 (crc32_ieee body) ++ body

end EntryCodec

/-- Outcome of `EntryCodec::decode`: an entry, the EOF marker, or an error. -/
inductive DecodeRes where
  | eof : DecodeRes
  | ok : Entry → DecodeRes
  | err : DbError → DecodeRes
deriving DecidableEq, Repr

def DecodeRes.isErr : DecodeRes → Bool
  | .err _ => true
  | _ => false

namespace EntryCodec

/-- `EntryCodec::decode` (`src/include/entry_codec.h`), reading from a byte
stream; the second component is the unread remainder of the stream (the
reader position advanced by the bytes consumed). -/
def decode (buf : Bytes) : DecodeRes × Bytes :=
  let header := buf.take HEADER_SIZE
  let rest := buf.drop HEADER_SIZE
  if header.length = 0 then (.eof, rest)
  else if header.length < HEADER_SIZE then (.err .truncated_header, rest)
  else
    let stored_cksum := bufU32 header CKSUM_OFFSET
    let klen := bufU32 header KLEN_OFFSET
    let vlen := bufU32 header VLEN_OFFSET
    let is_deleted : Bool := header.getD FLAG_OFFSET 0 != 0
    if klen > MAX_KEY_SIZE then (.err .key_too_large, rest)
    else if vlen > MAX_VAL_SIZE then (.err .value_too_large, rest)
    else
      let payload_size := klen + (if is_deleted then 0 else vlen)
      let payload := rest.take payload_size
      let rest2 := rest.drop payload_size
      if payload.length < payload_size then (.err .truncated_payload, rest2)
      else
        let c := crc32_final (crc32_update (crc32_update crc32_init (header.drop KLEN_OFFSET)) payload)
        if c ≠ stored_cksum then (.err .bad_checksum, rest2)
        else (.ok ⟨payload.take klen, if is_deleted then [] else payload.drop klen, is_deleted⟩, rest2)

end EntryCodec

/-! ## Arithmetic facts about the embedded primitives -/

lemma crc32_step_lt {c : Nat} (h : c < 2 ^ 32) : crc32_step c < 2 ^ 32 := by
  unfold crc32_step
  split
  · exact Nat.xor_lt_two_pow (by omega) (by norm_num)
  · omega

lemma crc32_table_lt {i : Nat} (h : i < 2 ^ 32) : crc32_table i < 2 ^ 32 :=
  crc32_step_lt (crc32_step_lt (crc32_step_lt (crc32_step_lt (crc32_step_lt
    (crc32_step_lt (crc32_step_lt (crc32_step_lt h)))))))

lemma crc32_byte_lt {c : Nat} (b : Nat) (h : c < 2 ^ 32) : crc32_byte c b < 2 ^ 32 := by
  unfold crc32_byte
  refine Nat.xor_lt_two_pow (by omega) (crc32_table_lt ?_)
  calc Nat.xor (b % 256) (c % 256) < 2 ^ 8 :=
        Nat.xor_lt_two_pow (by omega) (by omega)
    _ < 2 ^ 32 := by norm_num

lemma crc32_update_lt {c : Nat} (data : Bytes) (h : c < 2 ^ 32) :
    crc32_update c data < 2 ^ 32 := by
  induction data generalizing c with
  | nil => exact h
  | cons b t ih => exact ih (crc32_byte_lt b h)

lemma crc32_ieee_lt (data : Bytes) : crc32_ieee data < 2 ^ 32 := by
  unfold crc32_ieee crc32_final
  exact Nat.xor_lt_two_pow (crc32_update_lt data (by norm_num [crc32_init])) (by norm_num)

lemma crc32_update_append (c : Nat) (a b : Bytes) :
    crc32_update c (a ++ b) = crc32_update (crc32_update c a) b := by
  simp [crc32_update, List.foldl_append]

lemma bufU32_pack {v : Nat} (t : Bytes) (hv : v < 2 ^ 32) :
    bufU32 (pack_le32 v ++ t) 0 = v := by
  simp only [bufU32, pack_le32, unpack_le32, List.cons_append, List.getD_cons_zero,
    List.getD_cons_succ]
  omega

lemma bufU32_skip4 (a : Nat) (t : Bytes) (off : Nat) :
    bufU32 (pack_le32 a ++ t) (off + 4) = bufU32 t off := rfl

lemma bufU32_at4 (a : Nat) (t : Bytes) : bufU32 (pack_le32 a ++ t) 4 = bufU32 t 0 := rfl

lemma bufU32_at8 (a b : Nat) (t : Bytes) :
    bufU32 (pack_le32 a ++ (pack_le32 b ++ t)) 8 = bufU32 t 0 := rfl

lemma getD12 (a b c fl : Nat) :
    (pack_le32 a ++ (pack_le32 b ++ (pack_le32 c ++ [fl]))).getD 12 0 = fl := rfl

lemma hdr_drop4 (a b c fl : Nat) :
    (pack_le32 a ++ (pack_le32 b ++ (pack_le32 c ++ [fl]))).drop 4
      = pack_le32 b ++ (pack_le32 c ++ [fl]) := rfl

lemma crc32_update_cons (c b : Nat) (t : Bytes) :
    crc32_update c (b :: t) = crc32_update (crc32_byte c b) t := rfl

lemma crc32_update_nil (c : Nat) : crc32_update c [] = c := rfl

/-- How `EntryCodec::decode` behaves on a buffer presented as an explicit
frame `checksum ++ klen ++ vlen ++ flag ++ rest`: the header parses to the
three fields and the flag, and the remaining source checks run on `rest`. -/
lemma decode_framed (ck kl vl : Nat) (fl : Nat) (rest : Bytes)
    (hck : ck < 2 ^ 32) (hkl : kl < 2 ^ 32) (hvl : vl < 2 ^ 32) :
    EntryCodec.decode (pack_le32 ck ++ pack_le32 kl ++ pack_le32 vl ++ [fl] ++ rest) =
      (if kl > 1024 then (.err .key_too_large, rest)
       else if vl > 1048576 then (.err .value_too_large, rest)
       else
         let is_deleted : Bool := fl != 0
         let psize := kl + (if is_deleted then 0 else vl)
         let payload := rest.take psize
         if payload.length < psize then (.err .truncated_payload, rest.drop psize)
         else
           let c := crc32_final (crc32_update (crc32_update crc32_init
             (pack_le32 kl ++ pack_le32 vl ++ [fl])) payload)
           if c ≠ ck then (.err .bad_checksum, rest.drop psize)
           else (.ok ⟨payload.take kl, if is_deleted then [] else payload.drop kl, is_deleted⟩,
             rest.drop psize)) := by
  have hb : pack_le32 ck ++ pack_le32 kl ++ pack_le32 vl ++ [fl] ++ rest
      = (pack_le32 ck ++ (pack_le32 kl ++ (pack_le32 vl ++ [fl]))) ++ rest := by
    simp [List.append_assoc]
  have hlen : (pack_le32 ck ++ (pack_le32 kl ++ (pack_le32 vl ++ [fl]))).length = 13 := by
    simp [pack_le32]
  rw [hb]
  simp only [EntryCodec.decode, EntryCodec.HEADER_SIZE, EntryCodec.CKSUM_OFFSET,
    EntryCodec.KLEN_OFFSET, EntryCodec.VLEN_OFFSET, EntryCodec.FLAG_OFFSET,
    EntryCodec.MAX_KEY_SIZE, EntryCodec.MAX_VAL_SIZE,
    List.take_left' hlen, List.drop_left' hlen, hlen]
  rw [bufU32_pack _ hck, bufU32_at4, bufU32_pack _ hkl, bufU32_at8, bufU32_pack _ hvl,
    getD12, hdr_drop4]
  norm_num

/-! ## Claim C2 -/

/-- C2: for every Entry `e` with `len(key) ≤ 1024`, value empty when
`deleted` is true and `len(value) ≤ 1,048,576` when `deleted` is false,
decoding the byte buffer produced by `EntryCodec::encode(e)` yields exactly
`e` (same key, same value, same deleted flag) — and consumes the whole
buffer. -/
theorem entry_codec_roundtrip (e : Entry) (hk : e.key.length ≤ 1024)
    (hdel : e.deleted = true → e.val = [])
    (hval : e.deleted = false → e.val.length ≤ 1048576) :
    EntryCodec.decode (EntryCodec.encode e) = (.ok e, []) := by
  obtain ⟨key, val, deleted⟩ := e
  have hk2 : key.length ≤ 1024 := hk
  have hk' : ¬ (key.length > 1024) := by omega
  cases deleted with
  | true =>
    have h0 : val = [] := hdel rfl
    subst h0
    have henc : EntryCodec.encode ⟨key, [], true⟩
        = pack_le32 (crc32_ieee (pack_le32 key.length ++ pack_le32 0 ++ [1] ++ key))
          ++ pack_le32 key.length ++ pack_le32 0 ++ [1] ++ key := by
      simp [EntryCodec.encode]
    rw [henc, decode_framed _ _ _ _ _ (crc32_ieee_lt _) (by omega) (by omega)]
    simp [hk', crc32_ieee, crc32_update_append, crc32_update_cons, crc32_update_nil]
  | false =>
    have hv2 : val.length ≤ 1048576 := hval rfl
    have hv' : ¬ (val.length > 1048576) := by omega
    have henc : EntryCodec.encode ⟨key, val, false⟩
        = pack_le32 (crc32_ieee (pack_le32 key.length ++ pack_le32 val.length ++ [0] ++ key ++ val))
          ++ pack_le32 key.length ++ pack_le32 val.length ++ [0] ++ (key ++ val) := by
      simp [EntryCodec.encode]
    rw [henc, decode_framed _ _ _ _ _ (crc32_ieee_lt _) (by omega) (by omega)]
    have hlen : (key ++ val).length = key.length + val.length := by simp
    have htake : (key ++ val).take (key.length + val.length) = key ++ val := by
      rw [← hlen, List.take_length]
    simp [hk', hv', crc32_ieee, crc32_update_append, crc32_update_cons, crc32_update_nil, hlen,
      htake, List.take_left, List.drop_left]

/-- Witness for C2 at the concrete entry `{"k1", "xxx", false}`. -/
theorem entry_codec_roundtrip_witness :
    EntryCodec.decode (EntryCodec.encode ⟨[107, 49], [120, 120, 120], false⟩)
      = (.ok ⟨[107, 49], [120, 120, 120], false⟩, []) :=
  entry_codec_roundtrip ⟨[107, 49], [120, 120, 120], false⟩ (by decide) (by decide) (by decide)

lemma getD_take_lt {l : Bytes} {n i : Nat} (h : i < n) (d : Nat) :
    (l.take n).getD i d = l.getD i d := by
  simp [List.getD, List.getElem?_take_of_lt h]

lemma bufU32_take {l : Bytes} {n off : Nat} (h : off + 4 ≤ n) :
    bufU32 (l.take n) off = bufU32 l off := by
  unfold bufU32
  rw [getD_take_lt (by omega), getD_take_lt (by omega), getD_take_lt (by omega),
    getD_take_lt (by omega)]

/-! ## Claim C6 -/

/-- C6: `EntryCodec::decode` returns EOF exactly when the read at the 13-byte
header boundary yields zero bytes; a read of 1 to 12 bytes there is
`truncated_header`; `klen > 1024` is `key_too_large` and `vlen > 1,048,576`
is `value_too_large`, both detected with the cursor still right after the
header (no payload bytes consumed); the payload read is of exactly
`klen + (flag ? 0 : vlen)` bytes and a short payload read is
`truncated_payload`. -/
theorem entry_decode_error_boundaries (buf : Bytes) :
    ((EntryCodec.decode buf).1 = .eof ↔ buf = []) ∧
    (1 ≤ buf.length → buf.length ≤ 12 →
      (EntryCodec.decode buf).1 = .err .truncated_header) ∧
    (13 ≤ buf.length → 1024 < bufU32 buf 4 →
      EntryCodec.decode buf = (.err .key_too_large, buf.drop 13)) ∧
    (13 ≤ buf.length → bufU32 buf 4 ≤ 1024 → 1048576 < bufU32 buf 8 →
      EntryCodec.decode buf = (.err .value_too_large, buf.drop 13)) ∧
    (13 ≤ buf.length → bufU32 buf 4 ≤ 1024 → bufU32 buf 8 ≤ 1048576 →
      ((EntryCodec.decode buf).2
          = buf.drop (13 + (bufU32 buf 4 + if buf.getD 12 0 ≠ 0 then 0 else bufU32 buf 8)) ∧
        (buf.length < 13 + (bufU32 buf 4 + if buf.getD 12 0 ≠ 0 then 0 else bufU32 buf 8) →
          (EntryCodec.decode buf).1 = .err .truncated_payload))) := by
  simp only [EntryCodec.decode, EntryCodec.HEADER_SIZE, EntryCodec.CKSUM_OFFSET,
    EntryCodec.KLEN_OFFSET, EntryCodec.VLEN_OFFSET, EntryCodec.FLAG_OFFSET,
    EntryCodec.MAX_KEY_SIZE, EntryCodec.MAX_VAL_SIZE, List.length_take,
    bufU32_take (by omega : 4 + 4 ≤ 13), bufU32_take (by omega : 8 + 4 ≤ 13),
    getD_take_lt (by omega : 12 < 13), List.drop_drop, List.length_drop]
  refine ⟨?_, ?_, ?_, ?_, ?_⟩
  · constructor
    · intro h
      by_contra hne
      have hpos : 0 < buf.length := List.length_pos.mpr hne
      revert h
      split_ifs with h1 h2 h3 h4 h5 <;> simp_all
    · intro h
      subst h
      simp
  · intro h1 h2
    split_ifs with g1 g2 <;> first | rfl | omega
  · intro h1 h2
    split_ifs with g1 g2 <;> first | rfl | omega
  · intro h1 h2 h3
    split_ifs with g1 g2 g3 <;> first | rfl | omega
  · intro h1 h2 h3
    rw [if_neg (by omega), if_neg (by omega), if_neg (by omega), if_neg (by omega)]
    by_cases hfl : List.getD buf 12 0 = 0 <;>
      [simp only [hfl]; skip] <;>
      [norm_num; simp only [if_neg hfl, bne_iff_ne, ne_eq, hfl, not_false_eq_true, if_pos,
        if_true]] <;>
      split_ifs with gp <;>
      first
        | exact ⟨rfl, fun _ => rfl⟩
        | refine ⟨rfl, fun hlt => absurd gp (by omega)⟩

/-- Witness for C6: each boundary case exercised on a concrete buffer
(empty; 5 bytes; klen = 1025; vlen = 1,048,577; klen = 1 with empty
payload region). -/
theorem entry_decode_error_boundaries_witness :
    (EntryCodec.decode []).1 = .eof ∧
    (EntryCodec.decode [0, 0, 0, 0, 0]).1 = .err .truncated_header ∧
    EntryCodec.decode [0, 0, 0, 0, 1, 4, 0, 0, 0, 0, 0, 0, 0]
      = (.err .key_too_large, []) ∧
    EntryCodec.decode [0, 0, 0, 0, 0, 0, 0, 0, 1, 0, 16, 0, 0]
      = (.err .value_too_large, []) ∧
    (EntryCodec.decode [0, 0, 0, 0, 1, 0, 0, 0, 0, 0, 0, 0, 0]).1
      = .err .truncated_payload :=
  ⟨(entry_decode_error_boundaries []).1.mpr rfl,
   (entry_decode_error_boundaries _).2.1 (by decide) (by decide),
   (entry_decode_error_boundaries _).2.2.1 (by decide) (by decide),
   (entry_decode_error_boundaries _).2.2.2.1 (by decide) (by decide) (by decide),
   ((entry_decode_error_boundaries _).2.2.2.2 (by decide) (by decide) (by decide)).2 (by decide)⟩

/-! ## Claim C10 -/

/-- C10: `EntryCodec::decode` treats every nonzero flag byte (not only 1) as
a tombstone: for any buffer whose flag byte is in 2..255 (with `klen` and
`vlen` passing the size checks), the payload read covers only `klen` bytes
— the cursor ends at `13 + klen` regardless of `vlen` — and any
successfully decoded Entry has `deleted = true` and an empty value. -/
theorem entry_decode_nonzero_flag_tombstone (buf : Bytes)
    (hlen : 13 ≤ buf.length)
    (hfl2 : 2 ≤ buf.getD 12 0) (hfl255 : buf.getD 12 0 ≤ 255)
    (hkl : bufU32 buf 4 ≤ 1024) (hvl : bufU32 buf 8 ≤ 1048576) :
    (EntryCodec.decode buf).2 = buf.drop (13 + bufU32 buf 4) ∧
    ∀ e, (EntryCodec.decode buf).1 = .ok e →
      e.deleted = true ∧ e.val = [] ∧ e.key = (buf.drop 13).take (bufU32 buf 4) := by
  have hfl : buf.getD 12 0 ≠ 0 := by omega
  constructor
  · have h5 := (entry_decode_error_boundaries buf).2.2.2.2 hlen hkl hvl
    rw [if_pos hfl] at h5
    simpa using h5.1
  · intro e
    have hb : (List.getD buf 12 0 != 0) = true := by
      simpa [bne_iff_ne] using hfl
    simp only [EntryCodec.decode, EntryCodec.HEADER_SIZE, EntryCodec.CKSUM_OFFSET,
      EntryCodec.KLEN_OFFSET, EntryCodec.VLEN_OFFSET, EntryCodec.FLAG_OFFSET,
      EntryCodec.MAX_KEY_SIZE, EntryCodec.MAX_VAL_SIZE, List.length_take,
      bufU32_take (by omega : 4 + 4 ≤ 13), bufU32_take (by omega : 8 + 4 ≤ 13),
      getD_take_lt (by omega : 12 < 13), hb]
    rw [if_neg (by omega), if_neg (by omega), if_neg (by omega), if_neg (by omega)]
    norm_num
    split_ifs with gp gc
    · intro h
      cases h
    · intro h
      cases h
      refine ⟨rfl, rfl, ?_⟩
      simp [List.take_take]
    · intro h
      cases h

/-- A frame with flag byte 2, `klen = 1`, `vlen = 0`, key byte 107 and a
valid checksum: a concrete input whose decode succeeds with a nonzero,
non-1 flag. -/
def flag2buf : Bytes :=
  pack_le32 (crc32_ieee (pack_le32 1 ++ pack_le32 0 ++ [2] ++ [107]))
    ++ pack_le32 1 ++ pack_le32 0 ++ [2] ++ [107]

/-- Witness for C10 at the concrete buffer with flag byte 2. -/
theorem entry_decode_nonzero_flag_tombstone_witness :
    (EntryCodec.decode flag2buf).2 = flag2buf.drop (13 + bufU32 flag2buf 4) ∧
    ((⟨[107], [], true⟩ : Entry).deleted = true ∧ (⟨[107], [], true⟩ : Entry).val = []
      ∧ (⟨[107], [], true⟩ : Entry).key = (flag2buf.drop 13).take (bufU32 flag2buf 4)) :=
  ⟨(entry_decode_nonzero_flag_tombstone flag2buf (by decide) (by decide) (by decide)
      (by decide) (by decide)).1,
   (entry_decode_nonzero_flag_tombstone flag2buf (by decide) (by decide) (by decide)
      (by decide) (by decide)).2 ⟨[107], [], true⟩ (by decide)⟩

/-! ## Claim C7 -/

/-- Flip bit `i % 8` of byte `i / 8` of a buffer. -/
def flipBit (l : Bytes) (i : Nat) : Bytes :=
  l.set (i / 8) (Nat.xor (l.getD (i / 8) 0) (2 ^ (i % 8)))

/-- The golden entry `{"k1", "xxx", false}` of the spec's scenario 5
(`k1` = bytes 107 49, `xxx` = bytes 120 120 120). Its encoding is 18
bytes = 144 bits. -/
def entGolden : Entry := ⟨[107, 49], [120, 120, 120], false⟩

set_option maxRecDepth 10000 in
/-- Counterexample to C7: flipping bit 0 of byte 4 (the least significant
bit of the `klen` field) of the encoding of `{"k1", "xxx", false}` turns
`klen` from 2 into 3, so the payload read runs past the end of the buffer
and decode returns `truncated_payload`, not `bad_checksum`. -/
theorem bitflip_not_always_bad_checksum :
    (EntryCodec.decode (flipBit (EntryCodec.encode entGolden) 32)).1
        = .err .truncated_payload ∧
      (EntryCodec.decode (flipBit (EntryCodec.encode entGolden) 32)).1
        ≠ .err .bad_checksum := by
  decide

set_option maxRecDepth 10000 in
/-- C7 (amended): flipping any single bit of the encoding of
`{"k1", "xxx", false}` causes decode of the mutated buffer to return an
error; every flip outside the `klen`/`vlen` length fields (bytes 4..11)
returns `bad_checksum`, while length-field flips may instead return
`key_too_large`, `value_too_large`, or `truncated_payload`. -/
theorem bitflip_always_fails :
    ∀ i, i < 144 →
      (EntryCodec.decode (flipBit (EntryCodec.encode entGolden) i)).1.isErr = true ∧
        (i / 8 < 4 ∨ 12 ≤ i / 8 →
          (EntryCodec.decode (flipBit (EntryCodec.encode entGolden) i)).1
            = .err .bad_checksum) := by
  decide

/-- Witness for the amended C7 at bit 0 (inside the checksum field). -/
theorem bitflip_always_fails_witness :
    (EntryCodec.decode (flipBit (EntryCodec.encode entGolden) 0)).1
      = .err .bad_checksum :=
  (bitflip_always_fails 0 (by decide)).2 (by decide)

/-! ## Cell codec (`src/src/cell_codec.cpp`) -/

/-- A typed scalar cell (`src/include/cell.h`). -/
inductive Cell where
  | empty : Cell
  | i64 : Int → Cell
  | str : Bytes → Cell
deriving DecidableEq, Repr

namespace CellCodec

/-- `CellCodec::null_byte = 0x02`. -/
def null_byte : Nat := 2

/-- The `std::monostate` case of `CellCodec::encode`: a null cell is the
single byte `0x02`. -/
def encodeNull : Bytes := [null_byte]

/-- The `Cell::Type::no_type` branch of `CellCodec::decode`
(`src/src/cell_codec.cpp`): the source advances the caller's span by one
byte first (`buf = buf.subspan<1>()`), then tests emptiness, then tests
`buf[0]` — i.e. the byte after the one consumed.  The second component is
the advanced buffer the caller's cursor is left at.  (`subspan<1>` on an
already-empty span is undefined behaviour in C++; the model totalises it
as the empty remainder, and no theorem below evaluates that input.) -/
def decodeNull (buf : Bytes) : Except DbError Cell × Bytes :=
  let buf1 := buf.drop 1
  if buf1.isEmpty then (.error .expect_more_data, buf1)
  else if buf1.getD 0 0 ≠ null_byte then (.error .illegal_byte_sequence, buf1)
  else (.ok .empty, buf1)

end CellCodec

/-! ## Claim C9 -/

/-- C9 (code bug): decoding the canonical null-cell encoding `[0x02]`
(exactly what `CellCodec::encode` emits) fails with `expect_more_data`
after consuming the byte, instead of succeeding; decode validates the byte
*after* the consumed one, so `[0x02, 0x02]` and even `[0x00, 0x02]`
"succeed" while advancing the cursor by one byte only. -/
theorem cell_null_decode_checks_wrong_byte :
    CellCodec.decodeNull CellCodec.encodeNull = (.error .expect_more_data, []) ∧
    CellCodec.decodeNull [2, 2] = (.ok .empty, [2]) ∧
    CellCodec.decodeNull [0, 2] = (.ok .empty, [2]) :=
  ⟨rfl, rfl, rfl⟩

/-! ## Log file header (`src/src/log.cpp`) -/

namespace log_format

/-- `log_format::MAGIC` = "KVDB". -/
def MAGIC : Nat := 0x4B564442

def FORMAT_VERSION : Nat := 2

def HEADER_SIZE : Nat := 6

end log_format

/-- `write_file_header` (`src/src/log.cpp`): the 6-byte header, magic then
version, both little-endian. -/
def write_file_header : Bytes :=
  pack_le32 log_format.MAGIC ++ pack_le16 log_format.FORMAT_VERSION

/-- `read_and_validate_file_header` (`src/src/log.cpp`): read 6 bytes from
offset 0; a short read is `truncated_header`; then check magic, then
version. -/
def read_and_validate_file_header (file : Bytes) : Option DbError :=
  let header := file.take log_format.HEADER_SIZE
  if header.length < log_format.HEADER_SIZE then some .truncated_header
  else
    let magic := bufU32 header 0
    let version := bufU16 header 4
    if magic ≠ log_format.MAGIC then some .bad_magic
    else if version > log_format.FORMAT_VERSION then some .unsupported_version
    else none

/-- `Log::Open` (`src/src/log.cpp`) on a regular file, modelled on the file
contents: an empty file gets the header written (the result is the new
file contents); a non-empty file is validated from offset 0 (the source
seeks to `SEEK_SET` 0 first). -/
def Log.Open (file : Bytes) : Except DbError Bytes :=
  if file.length = 0 then .ok write_file_header
  else match read_and_validate_file_header file with
    | some e => .error e
    | none => .ok file

lemma bufU16_take {l : Bytes} {n off : Nat} (h : off + 2 ≤ n) :
    bufU16 (l.take n) off = bufU16 l off := by
  unfold bufU16
  rw [getD_take_lt (by omega), getD_take_lt (by omega)]

/-! ## Claim C5 -/

/-- C5: opening a zero-length file writes exactly the 6-byte header
`magic (LE) ++ version (LE)` before any entry; opening a non-empty file
validates from offset 0: magic ≠ 0x4B564442 is `bad_magic`, version > 2
(with the magic correct) is `unsupported_version`, and a header read
shorter than 6 bytes is `truncated_header`. -/
theorem log_open_header_validation :
    (Log.Open [] = .ok [0x42, 0x44, 0x56, 0x4B, 2, 0] ∧
      write_file_header = [0x42, 0x44, 0x56, 0x4B, 2, 0]) ∧
    ∀ file : Bytes, file ≠ [] →
      ((file.length < 6 → Log.Open file = .error .truncated_header) ∧
       (6 ≤ file.length → bufU32 file 0 ≠ 0x4B564442 →
         Log.Open file = .error .bad_magic) ∧
       (6 ≤ file.length → bufU32 file 0 = 0x4B564442 → 2 < bufU16 file 4 →
         Log.Open file = .error .unsupported_version)) := by
  refine ⟨⟨rfl, rfl⟩, ?_⟩
  intro file hne
  have hpos : 0 < file.length := List.length_pos.mpr hne
  simp only [Log.Open, read_and_validate_file_header, log_format.HEADER_SIZE,
    log_format.MAGIC, log_format.FORMAT_VERSION, if_neg (by omega : ¬ file.length = 0),
    List.length_take]
  refine ⟨fun h => ?_, fun h hm => ?_, fun h hm hv => ?_⟩
  · rw [if_pos (by omega)]
  · rw [if_neg (by omega), bufU32_take (by omega), if_pos (by norm_num [hm])]
  · rw [if_neg (by omega), bufU32_take (by omega), if_neg (by norm_num [hm])]
    simp only [bufU16_take (by omega : 4 + 2 ≤ 6)]
    simp [hv]

/-- Witness for C5: short header; `"XXXX" + version 2` (the spec's bad-magic
scenario); correct magic with version 3. -/
theorem log_open_header_validation_witness :
    Log.Open [66] = .error .truncated_header ∧
    Log.Open [88, 88, 88, 88, 2, 0] = .error .bad_magic ∧
    Log.Open [66, 68, 86, 75, 3, 0] = .error .unsupported_version :=
  ⟨(log_open_header_validation.2 [66] (by decide)).1 (by decide),
   (log_open_header_validation.2 [88, 88, 88, 88, 2, 0] (by decide)).2.1 (by decide) (by decide),
   (log_open_header_validation.2 [66, 68, 86, 75, 3, 0] (by decide)).2.2
     (by decide) (by decide) (by decide)⟩

/-! ## KV engine (`src/src/kv.cpp`, `src/include/kv.h`) -/

/-- The in-memory index: an association list with unique keys, mirroring
`std::unordered_map<bytes, bytes>` (`mem` in `kv.h`). -/
abbrev Index := List (Bytes × Bytes)

namespace Index

/-- `mem.find(k)` returning the mapped value if present. -/
def find : Index → Bytes → Option Bytes
  | [], _ => none
  | p :: rest, k => if p.1 = k then some p.2 else find rest k

/-- `mem.insert_or_assign(k, v)`: overwrite the existing mapping or add a
new one. -/
def insert_or_assign : Index → Bytes → Bytes → Index
  | [], k, v => [(k, v)]
  | p :: rest, k, v => if p.1 = k then (k, v) :: rest else p :: insert_or_assign rest k v

/-- `mem.erase(k)`: remove the mapping for `k`. -/
def erase : Index → Bytes → Index
  | [], _ => []
  | p :: rest, k => if p.1 = k then erase rest k else p :: erase rest k

end Index

lemma find_erase (m : Index) (k : Bytes) : (m.erase k).find k = none := by
  induction m with
  | nil => rfl
  | cons p rest ih =>
    by_cases h : p.1 = k <;> simp [Index.erase, Index.find, h, ih]

/-- The engine's owned state: the in-memory index and the log file
contents. -/
structure KVState where
  mem : Index
  logdata : Bytes
deriving DecidableEq, Repr

/-- `Log::Write` (`src/src/log.cpp`): seek to end, append the encoded
entry, fsync. -/
def Log.Write (file : Bytes) (e : Entry) : Bytes := file ++ EntryCodec.encode e

/-- `KV::UpdateMode` (`src/include/kv.h`). -/
inductive UpdateMode where
  | Upsert
  | Insert
  | Update
deriving DecidableEq, Repr

/-- `KeyValue::set_ex` (`src/src/kv.cpp`).  The platform write is external
I/O, so its outcome is a parameter: `wfail = some e` models `log.write`
failing with `e`, `none` models success.  The result pairs the returned
`expected<bool, error>` with the engine state after the call. -/
def KeyValue.set_ex (st : KVState) (key val : Bytes) (mode : UpdateMode)
    (wfail : Option DbError) : Except DbError Bool × KVState :=
  let it := st.mem.find key
  let exist := it.isSome
  let updated := match mode with
    | .Upsert => !exist || decide (it ≠ some val)
    | .Insert => !exist
    | .Update => exist && decide (it ≠ some val)
  if updated = false then (.ok false, st)
  else
    match wfail with
    | some e => (.error e, st)
    | none => (.ok true,
        ⟨st.mem.insert_or_assign key val, Log.Write st.logdata ⟨key, val, false⟩⟩)

/-- `KeyValue::del` (`src/src/kv.cpp`), with the log-write outcome a
parameter as in `KeyValue.set_ex`. -/
def KeyValue.del (st : KVState) (key : Bytes) (wfail : Option DbError) :
    Except DbError Bool × KVState :=
  match st.mem.find key with
  | none => (.ok false, st)
  | some _ =>
    match wfail with
    | some e => (.error e, st)
    | none => (.ok true, ⟨st.mem.erase key, Log.Write st.logdata ⟨key, [], true⟩⟩)

/-- `KeyValue::get` (`src/src/kv.cpp`): reads are served from the index
only. -/
def KeyValue.get (st : KVState) (key : Bytes) : Option Bytes := st.mem.find key

/-! ## Claim C3 -/

/-- C3: `set_ex` reports changed per mode — `Upsert`: key absent or current
value differs; `Insert`: key absent; `Update`: key present and current
value differs.  When changed is false no log write occurs and the result
is `false` with the state untouched; otherwise a live Entry is appended to
the log and the index updated, returning `true`; on a write failure the
state (index and log) is unchanged. -/
theorem set_ex_mode_semantics (st : KVState) (k v : Bytes) :
    ((st.mem.find k = none ∨ st.mem.find k ≠ some v) →
      KeyValue.set_ex st k v .Upsert none
        = (.ok true, ⟨st.mem.insert_or_assign k v, Log.Write st.logdata ⟨k, v, false⟩⟩)) ∧
    (st.mem.find k = some v →
      KeyValue.set_ex st k v .Upsert none = (.ok false, st)) ∧
    (st.mem.find k = none →
      KeyValue.set_ex st k v .Insert none
        = (.ok true, ⟨st.mem.insert_or_assign k v, Log.Write st.logdata ⟨k, v, false⟩⟩)) ∧
    (st.mem.find k ≠ none →
      KeyValue.set_ex st k v .Insert none = (.ok false, st)) ∧
    ((st.mem.find k ≠ none ∧ st.mem.find k ≠ some v) →
      KeyValue.set_ex st k v .Update none
        = (.ok true, ⟨st.mem.insert_or_assign k v, Log.Write st.logdata ⟨k, v, false⟩⟩)) ∧
    ((st.mem.find k = none ∨ st.mem.find k = some v) →
      KeyValue.set_ex st k v .Update none = (.ok false, st)) ∧
    (∀ mode err, (KeyValue.set_ex st k v mode (some err)).2 = st ∧
      ((KeyValue.set_ex st k v mode (some err)).1 = .error err ∨
        (KeyValue.set_ex st k v mode (some err)).1 = .ok false)) := by
  cases hf : st.mem.find k with
  | none =>
    refine ⟨?_, ?_, ?_, ?_, ?_, ?_, ?_⟩ <;>
      first
        | (intro mode err
           cases mode <;> simp [KeyValue.set_ex, hf])
        | (intro h
           simp_all [KeyValue.set_ex, hf])
  | some cur =>
    by_cases hv : cur = v
    · subst hv
      refine ⟨?_, ?_, ?_, ?_, ?_, ?_, ?_⟩ <;>
        first
          | (intro mode err
             cases mode <;> simp [KeyValue.set_ex, hf])
          | (intro h
             simp_all [KeyValue.set_ex, hf])
    · refine ⟨?_, ?_, ?_, ?_, ?_, ?_, ?_⟩ <;>
      first
        | (intro mode err
           cases mode <;> simp [KeyValue.set_ex, hf, hv])
        | (intro h
           simp_all [KeyValue.set_ex, hf, hv])

/-- Witness for C3: fresh-insert Upsert writes and returns true; repeated
Upsert with the same value returns false without touching the state;
Update on a present key with a different value writes and returns true. -/
theorem set_ex_mode_semantics_witness :
    KeyValue.set_ex ⟨[], []⟩ [1] [2] .Upsert none
      = (.ok true, ⟨[([1], [2])], Log.Write [] ⟨[1], [2], false⟩⟩) ∧
    KeyValue.set_ex ⟨[([1], [2])], [7]⟩ [1] [2] .Upsert none
      = (.ok false, ⟨[([1], [2])], [7]⟩) ∧
    KeyValue.set_ex ⟨[([1], [2])], []⟩ [1] [3] .Update none
      = (.ok true, ⟨[([1], [3])], Log.Write [] ⟨[1], [3], false⟩⟩) :=
  ⟨(set_ex_mode_semantics ⟨[], []⟩ [1] [2]).1 (by decide),
   (set_ex_mode_semantics ⟨[([1], [2])], [7]⟩ [1] [2]).2.1 (by decide),
   (set_ex_mode_semantics ⟨[([1], [2])], []⟩ [1] [3]).2.2.2.2.1 (by decide)⟩

/-! ## Claim C4 -/

/-- C4: for every mutation (`set_ex` in any mode, or `del`) on every engine
state, a failed log write leaves the state (in particular the index)
completely unchanged and surfaces exactly that error to the caller.  The
write-attempting calls are isolated by the hypothesis that the same call
with a succeeding write returns `true` (the changed condition does not
depend on the write outcome); the no-op calls return `false` without
attempting the write.  Finally, the index is mutated only together with a
log append describing the same change. -/
theorem failed_write_leaves_index_unchanged (st : KVState) (k v : Bytes)
    (mode : UpdateMode) (err : DbError) :
    ((KeyValue.set_ex st k v mode (some err)).2 = st) ∧
    ((KeyValue.del st k (some err)).2 = st) ∧
    ((KeyValue.set_ex st k v mode none).1 = .ok true →
      KeyValue.set_ex st k v mode (some err) = (.error err, st)) ∧
    ((KeyValue.set_ex st k v mode none).1 = .ok false →
      KeyValue.set_ex st k v mode (some err) = (.ok false, st)) ∧
    ((KeyValue.del st k none).1 = .ok true →
      KeyValue.del st k (some err) = (.error err, st)) ∧
    ((KeyValue.del st k none).1 = .ok false →
      KeyValue.del st k (some err) = (.ok false, st)) ∧
    (∀ wfail, (KeyValue.set_ex st k v mode wfail).2.mem ≠ st.mem →
      (KeyValue.set_ex st k v mode wfail).2.logdata
        = st.logdata ++ EntryCodec.encode ⟨k, v, false⟩) ∧
    (∀ wfail, (KeyValue.del st k wfail).2.mem ≠ st.mem →
      (KeyValue.del st k wfail).2.logdata
        = st.logdata ++ EntryCodec.encode ⟨k, [], true⟩) := by
  refine ⟨?_, ?_, ?_, ?_, ?_, ?_, ?_, ?_⟩
  · simp only [KeyValue.set_ex]
    split_ifs <;> simp
  · simp only [KeyValue.del]
    cases st.mem.find k <;> simp
  · simp only [KeyValue.set_ex]
    split_ifs <;> simp
  · simp only [KeyValue.set_ex]
    split_ifs <;> simp
  · simp only [KeyValue.del]
    cases st.mem.find k <;> simp
  · simp only [KeyValue.del]
    cases st.mem.find k <;> simp
  · intro wfail
    simp only [KeyValue.set_ex]
    split_ifs <;> cases wfail <;> simp [Log.Write]
  · intro wfail
    simp only [KeyValue.del]
    cases st.mem.find k <;> cases wfail <;> simp [Log.Write]

/-- Witness for C4: a write-attempting set and del each surface the failed
write's error with the state untouched; their no-op counterparts return
false; and an index-changing set and del each append exactly the entry
describing the change. -/
theorem failed_write_leaves_index_unchanged_witness :
    KeyValue.set_ex ⟨[], []⟩ [1] [2] .Upsert (some .io_failure)
        = (.error .io_failure, ⟨[], []⟩) ∧
    KeyValue.set_ex ⟨[([1], [2])], []⟩ [1] [2] .Upsert (some .io_failure)
        = (.ok false, ⟨[([1], [2])], []⟩) ∧
    KeyValue.del ⟨[([1], [2])], []⟩ [1] (some .io_failure)
        = (.error .io_failure, ⟨[([1], [2])], []⟩) ∧
    KeyValue.del ⟨[], []⟩ [1] (some .io_failure) = (.ok false, ⟨[], []⟩) ∧
    (KeyValue.set_ex ⟨[], []⟩ [1] [2] .Upsert none).2.logdata
        = [] ++ EntryCodec.encode ⟨[1], [2], false⟩ ∧
    (KeyValue.del ⟨[([1], [2])], []⟩ [1] none).2.logdata
        = [] ++ EntryCodec.encode ⟨[1], [], true⟩ :=
  ⟨(failed_write_leaves_index_unchanged ⟨[], []⟩ [1] [2] .Upsert .io_failure).2.2.1
      rfl,
   (failed_write_leaves_index_unchanged ⟨[([1], [2])], []⟩ [1] [2] .Upsert .io_failure).2.2.2.1
      rfl,
   (failed_write_leaves_index_unchanged ⟨[([1], [2])], []⟩ [1] [2] .Upsert .io_failure).2.2.2.2.1
      rfl,
   (failed_write_leaves_index_unchanged ⟨[], []⟩ [1] [2] .Upsert .io_failure).2.2.2.2.2.1
      rfl,
   (failed_write_leaves_index_unchanged ⟨[], []⟩ [1] [2] .Upsert .io_failure).2.2.2.2.2.2.1
      none (by decide),
   (failed_write_leaves_index_unchanged ⟨[([1], [2])], []⟩ [1] [2] .Upsert .io_failure).2.2.2.2.2.2.2
      none (by decide)⟩

/-! ## Claim C8 -/

/-- C8: `del(k)` on an absent key performs no log write and returns false
(regardless of whether the underlying write would fail); on a present key
it appends a tombstone Entry to the log, erases `k` from the index,
returns true, and afterwards `get(k)` is absent. -/
theorem del_semantics (st : KVState) (k : Bytes) :
    (st.mem.find k = none → ∀ wfail, KeyValue.del st k wfail = (.ok false, st)) ∧
    (st.mem.find k ≠ none →
      (KeyValue.del st k none
        = (.ok true, ⟨st.mem.erase k, Log.Write st.logdata ⟨k, [], true⟩⟩) ∧
       KeyValue.get (KeyValue.del st k none).2 k = none)) := by
  cases hf : st.mem.find k with
  | none => simp [KeyValue.del, hf]
  | some cur => simp [KeyValue.del, hf, KeyValue.get, find_erase]

/-- Witness for C8: del of a missing key returns false; del of a present
key writes the tombstone, erases it and a following get is absent. -/
theorem del_semantics_witness :
    KeyValue.del ⟨[], []⟩ [1] none = (.ok false, ⟨[], []⟩) ∧
    (KeyValue.del ⟨[([1], [2])], []⟩ [1] none
        = (.ok true, ⟨[], Log.Write [] ⟨[1], [], true⟩⟩) ∧
      KeyValue.get (KeyValue.del ⟨[([1], [2])], []⟩ [1] none).2 [1] = none) :=
  ⟨(del_semantics ⟨[], []⟩ [1]).1 (by decide) none,
   (del_semantics ⟨[([1], [2])], []⟩ [1]).2 (by decide)⟩

/-! ## Replay (`KeyValue::open`, `src/src/kv.cpp`) -/

lemma decode_ok_shrinks {buf : Bytes} {e : Entry} {rest : Bytes}
    (h : EntryCodec.decode buf = (.ok e, rest)) : rest.length < buf.length := by
  have hne : buf ≠ [] := by
    intro hbuf
    subst hbuf
    have h1 := (entry_decode_error_boundaries ([] : Bytes)).1.mpr rfl
    rw [h] at h1
    cases h1
  have hge1 : 1 ≤ buf.length := List.length_pos.mpr hne
  have hlen : 13 ≤ buf.length := by
    by_contra hlt
    have h2 := (entry_decode_error_boundaries buf).2.1 hge1 (by omega)
    rw [h] at h2
    cases h2
  have hkl : bufU32 buf 4 ≤ 1024 := by
    by_contra hk
    have h3 := (entry_decode_error_boundaries buf).2.2.1 hlen (by omega)
    rw [h] at h3
    simp at h3
  have hvl : bufU32 buf 8 ≤ 1048576 := by
    by_contra hv
    have h4 := (entry_decode_error_boundaries buf).2.2.2.1 hlen hkl (by omega)
    rw [h] at h4
    simp at h4
  have h5 := ((entry_decode_error_boundaries buf).2.2.2.2 hlen hkl hvl).1
  rw [h] at h5
  simp only at h5
  rw [h5, List.length_drop]
  omega

/-- One replay iteration's index update (`kv.cpp`): a tombstone erases the
key, a live entry inserts or overwrites. -/
def replayStep (mem : Index) (e : Entry) : Index :=
  if e.deleted then mem.erase e.key else mem.insert_or_assign e.key e.val

/-- Modelled from the spec: `Log::read` — the member the replay loop of
`src/src/kv.cpp` calls is absent from the sources (only the differently
shaped `Log::Read(Entry&)` revision is present).  Per spec §4.3, "read():
decode one Entry from the current position; returns `Entry`, `EOF`, or an
error from the codec or underlying I/O" — codec errors pass through
unchanged. -/
def Log.read (buf : Bytes) : DecodeRes × Bytes := EntryCodec.decode buf

/-- The `while (true)` replay loop of `KeyValue::open` (`src/src/kv.cpp`
lines 12–24): read; on a read error return it (`return result.error()`);
on EOF return success; otherwise apply the entry to the index and loop.
The fuel argument only bounds the iteration count so the definition is
structural; `replayLoop_fuel_irrelevant` shows any fuel exceeding the
buffer length gives the same result, because each decoded entry consumes
at least the 13 header bytes. -/
def KeyValue.replayLoop : Nat → Index → Bytes → Except DbError Index
  | 0, mem, _ => .ok mem
  | fuel + 1, mem, buf =>
    match Log.read buf with
    | (.eof, _) => .ok mem
    | (.err e, _) => .error e
    | (.ok ent, rest) => KeyValue.replayLoop fuel (replayStep mem ent) rest

lemma replayLoop_fuel_irrelevant :
    ∀ (m n : Nat) (mem : Index) (buf : Bytes), buf.length < m → buf.length < n →
      KeyValue.replayLoop m mem buf = KeyValue.replayLoop n mem buf := by
  intro m
  induction m with
  | zero =>
    intro n mem buf hm hn
    omega
  | succ m ih =>
    intro n mem buf hm hn
    cases n with
    | zero => omega
    | succ n =>
      simp only [KeyValue.replayLoop, Log.read]
      cases hdec : EntryCodec.decode buf with
      | mk r rest =>
        cases r with
        | eof => rfl
        | err e => rfl
        | ok ent =>
          have hs := decode_ok_shrinks hdec
          exact ih n (replayStep mem ent) rest (by omega) (by omega)

/-- `KeyValue::open` (`src/src/kv.cpp`): open the log (writing/validating
the file header), clear the index, seek to the first entry (offset 6), and
replay. -/
def KeyValue.open (file : Bytes) : Except DbError Index :=
  match Log.Open file with
  | .error e => .error e
  | .ok f => KeyValue.replayLoop (f.length + 1) [] (f.drop 6)

/-! ## Claim C1 -/

/-- A log whose file header is valid, followed by one complete entry
`("k1" ↦ "v1")` and a second entry `("k2" ↦ "v2")` whose final byte is
torn off — the spec's truncated-tail recovery scenario. -/
def c1file : Bytes :=
  write_file_header ++ EntryCodec.encode ⟨[107, 49], [118, 49], false⟩
    ++ (EntryCodec.encode ⟨[107, 50], [118, 50], false⟩).dropLast

/-- C1 (code bug): on a valid-header log holding one good entry and a
1-byte-truncated second entry, `KeyValue::open` returns the decode error
(`truncated_payload`) instead of swallowing the torn tail — the replay
loop in `src/src/kv.cpp` does `return result.error()`.  The second
conjunct shows the same log without the torn tail replays to the index
holding `k1 ↦ v1`, the state the claim requires open to succeed with. -/
theorem kv_open_surfaces_tail_corruption :
    KeyValue.open c1file = .error .truncated_payload ∧
    KeyValue.open (write_file_header ++ EntryCodec.encode ⟨[107, 49], [118, 49], false⟩)
      = .ok [([107, 49], [118, 49])] := ⟨rfl, rfl⟩
